import Mathlib

/-
  Verification of the url-shortner service core.

  Shallow embedding conventions:
  * Go strings are Lean `String` (or `List Char` for the hash-variant codes).
  * Timestamps and durations are `Int` in seconds; `time.Until t = t - now`.
  * The gorm database is a `List UrlShortener`; SQL WHERE clauses become
    boolean filters; `First` becomes `List.head?` of the filtered list.
  * Redis is a function from key to a result; a Redis/store error is the
    `Except.error` case.
  * Go `panic` sites are modelled as `Except.error` with the panic message.
  * Package-level mutable state (`counter`, `lastCounterEpochTimestamp`) is
    threaded explicitly as a `GenState`.
-/

/-! ## Code encoder: `toBase36` (src/helpers.go lines 78-93) -/

def base36Chars : List Char := "0123456789abcdefghijklmnopqrstuvwxyz".toList

/-- Loop of `toBase36`: repeatedly take `num % 36` as the next (most
significant so far) digit and divide by 36, prepending each digit. -/
def toBase36Aux (n : Nat) : List Char :=
  if h : n = 0 then []
  else toBase36Aux (n / 36) ++ [base36Chars.getD (n % 36) '?']
termination_by n
decreasing_by exact Nat.div_lt_self (Nat.pos_of_ne_zero h) (by norm_num)

/-- Model of Go `toBase36(num int64)`: returns "0" for 0; for a negative
input the Go loop body never runs and the empty string is returned, which
`Int.toNat = 0` reproduces. -/
def toBase36 (num : Int) : String :=
  if num = 0 then "0" else String.mk (toBase36Aux num.toNat)

/-- Value of a base-36 digit character (its index in the alphabet). -/
def base36DigitVal (c : Char) : Nat := base36Chars.indexOf c

/-- Decoder used only in proofs: fold the digit list back to a number. -/
def fromBase36Digits (l : List Char) : Nat :=
  l.foldl (fun acc c => acc * 36 + base36DigitVal c) 0

/-! ## Data model (src/model.go) -/

def MAX_RETRIES : Nat := 3

structure UrlShortener where
  OriginalUrl : String
  ShortCode : String
  Views : Int
  LastViewed : Option Int
  UserId : Option Nat
  Password : Option String
  CreatedAt : Int
  UpdatedAt : Int
  DeletedAt : Option Int
  ExpiresAt : Option Int
deriving Repr, DecidableEq

/-- The SQL filter `deleted_at IS NULL AND (expires_at IS NULL OR
expires_at > now)` used by `doesShortCodeExist` and `getUrlModel`. -/
def liveFilter (now : Int) (r : UrlShortener) : Bool :=
  r.DeletedAt.isNone &&
    (match r.ExpiresAt with
     | none => true
     | some t => decide (now < t))

/-! ## Store operations (src/helpers.go) -/

/-- Model of `insertUrl` (lines 117-126): `db.Create` succeeds only when the
`unique` column constraint on `short_code` (over all rows, soft-deleted
included) is not violated, and appends the row. -/
def insertUrl (r : UrlShortener) (s : List UrlShortener) :
    Except Unit (List UrlShortener) :=
  if s.any (fun x => x.ShortCode == r.ShortCode) then .error ()
  else .ok (s ++ [r])

/-- Model of `deleteUrl` (lines 146-163): set `DeletedAt` (and the
gorm-managed `UpdatedAt`) on every row whose `short_code` matches. -/
def deleteUrl (now : Int) (shortCode : String) (s : List UrlShortener) :
    List UrlShortener :=
  s.map fun r =>
    if r.ShortCode == shortCode then
      { r with DeletedAt := some now, UpdatedAt := now }
    else r

/-- Model of `activateUrl` (lines 165-177): clear `deleted_at` on every row
whose `short_code` matches. -/
def activateUrl (shortCode : String) (s : List UrlShortener) :
    List UrlShortener :=
  s.map fun r =>
    if r.ShortCode == shortCode then { r with DeletedAt := none } else r

/-- Model of `getUrlModel` (lines 128-144): `First` row matching the code
and the live filter, `nil` when none. -/
def getUrlModel (now : Int) (s : List UrlShortener) (shortCode : String) :
    Option UrlShortener :=
  (s.filter fun r => r.ShortCode == shortCode && liveFilter now r).head?

/-! ## Store state machine for the uniqueness invariant (claim C1) -/

/-- One mutation of the url_shorteners table, as performed by the
repository's own helpers. A failed `insertUrl` (duplicate code) leaves the
state unchanged, so it needs no constructor. -/
inductive DbStep : List UrlShortener → List UrlShortener → Prop
  | insert (s : List UrlShortener) (r : UrlShortener)
      (hfresh : ∀ x ∈ s, x.ShortCode ≠ r.ShortCode) : DbStep s (s ++ [r])
  | delete (s : List UrlShortener) (now : Int) (code : String) :
      DbStep s (deleteUrl now code s)
  | activate (s : List UrlShortener) (code : String) :
      DbStep s (activateUrl code s)

/-- States of the table reachable from the empty database via the
repository's mutations. -/
inductive Reachable : List UrlShortener → Prop
  | nil : Reachable []
  | step {s s' : List UrlShortener} : Reachable s → DbStep s s' → Reachable s'

/-! ## Cache layer (src/helpers.go lines 238-284, src/main.go redis client) -/

/-- Result of `redisClient.Get(...).Bytes()` followed by `json.Unmarshal`:
`Except.error` is any Redis failure or an unmarshal failure, `.ok none` is
`redis.Nil` (key absent), `.ok (some m)` a well-formed cached record. -/
def RedisGet : Type := String → Except Unit (Option UrlShortener)

/-- Model of `getCachedUrl` (lines 255-271): returns the cached model and
an error flag; every failure path yields a `none` model. -/
def getCachedUrl (redis : RedisGet) (shortCode : String) :
    Option UrlShortener × Bool :=
  match redis shortCode with
  | .error _ => (none, true)
  | .ok none => (none, false)
  | .ok (some m) => (some m, false)

/-- Model of the `db.Model(&UrlShortener{}).Where(...).Count(...)` query in
`doesShortCodeExist`: the count of live rows with the code, or a store
error. -/
def liveCountQuery (now : Int) (s : List UrlShortener) :
    String → Except Unit Nat :=
  fun code => .ok ((s.filter fun r => r.ShortCode == code && liveFilter now r).length)

/-- Model of `doesShortCodeExist` (lines 95-115): any cache hit returns
true immediately (the error return of `getCachedUrl` is discarded by
`urlModel, _ := ...`); on a cache miss the store is counted, and a store
error (`result.Error != nil`) returns false. -/
def doesShortCodeExist (redis : RedisGet) (db : String → Except Unit Nat)
    (shortCode : String) : Bool :=
  match (getCachedUrl redis shortCode).1 with
  | some _ => true
  | none =>
    match db shortCode with
    | .error _ => false
    | .ok exists_ => decide (exists_ > 0)

/-- Write performed by `cacheUrl`: either nothing, or a `redisClient.Set`
with the given TTL. -/
inductive CacheWrite where
  | noop : CacheWrite
  | set (ttl : Int) : CacheWrite
deriving Repr, DecidableEq

/-- The `24 * time.Hour` default TTL, in seconds. -/
def hours24 : Int := 24 * 60 * 60

/-- Model of `cacheUrl` (lines 238-253): default TTL 24h; when the record
has an expiry the TTL becomes `time.Until(expiresAt) = expiresAt - now`,
and if that is not positive nothing is cached. `json.Marshal` of a
`UrlShortener` cannot fail, so the marshal-error branch is dead. -/
def cacheUrl (now : Int) (urlModel : UrlShortener) : CacheWrite :=
  match urlModel.ExpiresAt with
  | none => .set hours24
  | some t => if t - now ≤ 0 then .noop else .set (t - now)

/-! ## Counter-based generator (src/helpers.go lines 41-76) -/

/-- The package-level mutable pair `counter` / `lastCounterEpochTimestamp`. -/
structure GenState where
  counter : Nat
  lastEpoch : Int
deriving Repr, DecidableEq

/-- Reinterpret a uint64 value as Go `int64(count)`. -/
def int64OfUint64 (n : Nat) : Int :=
  if n < 2 ^ 63 then (n : Int) else (n : Int) - 2 ^ 64

/-- Two's-complement wraparound of Go int64 addition. -/
def wrap64 (x : Int) : Int := (x + 2 ^ 63) % 2 ^ 64 - 2 ^ 63

/-- Model of `createShortCode` (lines 41-70). The current time of each
attempt is `times retryCount`; the atomic counter state is threaded
explicitly and returned next to the code. The `panic` on exceeding
`MAX_RETRIES` is the `Except.error` case. Note the numeric code uses the
pre-reset `count` local even when the epoch changed, as the Go code does. -/
def createShortCode (existsCheck : String → Bool) (times : Nat → Int)
    (st : GenState) (retryCount : Nat) : Except String (String × GenState) :=
  if h : retryCount > MAX_RETRIES then
    .error "Error creating short url, max retry count exceded"
  else
    let currentEpochTime := times retryCount
    let count := (st.counter + 1) % 2 ^ 64
    let stIncr : GenState := { st with counter := count }
    let stNext : GenState :=
      if currentEpochTime ≠ stIncr.lastEpoch then
        { counter := 0, lastEpoch := currentEpochTime }
      else stIncr
    let numericShortCode : Int := wrap64 (int64OfUint64 count + currentEpochTime)
    let shortCode := toBase36 numericShortCode
    if existsCheck shortCode then
      createShortCode existsCheck times stNext (retryCount + 1)
    else
      .ok (shortCode, stNext)
termination_by MAX_RETRIES + 1 - retryCount
decreasing_by simp only [MAX_RETRIES] at *; omega

/-! ## Read path (src/service.go lines 257-285) -/

inductive RedirectResult where
  | badRequest : RedirectResult
  | notFound : RedirectResult
  | passwordRequired : RedirectResult
  | invalidPassword : RedirectResult
  | redirect (url : String) : RedirectResult
deriving Repr, DecidableEq

/-- Model of `redirectToOriginalUrl`: the `code` query parameter and the
`X-Password` header are strings ("" when absent); `bcryptCheck hash pw`
models `bcrypt.CompareHashAndPassword` succeeding. The resolution itself
is `getUrlModel`, which queries only the database. -/
def redirectToOriginalUrl (bcryptCheck : String → String → Bool) (now : Int)
    (s : List UrlShortener) (shortCode password : String) : RedirectResult :=
  if shortCode = "" then .badRequest
  else
    match getUrlModel now s shortCode with
    | none => .notFound
    | some urlModel =>
      match urlModel.Password with
      | none => .redirect urlModel.OriginalUrl
      | some hash =>
        if password = "" then .passwordRequired
        else if bcryptCheck hash password then .redirect urlModel.OriginalUrl
        else .invalidPassword

/-! ## Write path (src/service.go lines 32-103) -/

structure ShortenRequestBody where
  URL : String
  ExpiresAt : Option String
  CustomUrl : Option String
  Password : Option String

inductive ShortenResult where
  | badRequest (msg : String) : ShortenResult
  | serverError (msg : String) : ShortenResult
  | panicked (msg : String) : ShortenResult
  | created (shortCode : String) (record : UrlShortener) : ShortenResult
deriving Repr, DecidableEq

/-- Tail of `shortenUrl` once the short code is fixed: build the record,
parse the optional expiry, hash the optional password, insert. The insert
outcome is supplied as `insertErr` (a store-level failure such as a
duplicate-key race). -/
def shortenUrlInsert (parseRFC3339 : String → Option Int)
    (bcryptHash : String → Option String) (user : Option Nat) (now : Int)
    (insertErr : Bool) (rb : ShortenRequestBody) (shortCode : String) :
    ShortenResult :=
  let base : UrlShortener :=
    { OriginalUrl := rb.URL, ShortCode := shortCode, Views := 0,
      LastViewed := none, UserId := user, Password := none,
      CreatedAt := now, UpdatedAt := now, DeletedAt := none,
      ExpiresAt := none }
  let withExpiry : Except ShortenResult UrlShortener :=
    match rb.ExpiresAt with
    | none => .ok base
    | some es =>
      match parseRFC3339 es with
      | none => .error (.badRequest "Invalid expiry date")
      | some t => .ok { base with ExpiresAt := some t }
  match withExpiry with
  | .error e => e
  | .ok rec1 =>
    let withPassword : Except ShortenResult UrlShortener :=
      match rb.Password with
      | none => .ok rec1
      | some p =>
        match bcryptHash p with
        | none => .error (.serverError "Error creating the short URL")
        | some h => .ok { rec1 with Password := some h }
    match withPassword with
    | .error e => e
    | .ok rec2 =>
      if insertErr then .serverError "Error creating the short URL"
      else .created shortCode rec2

/-- Model of `shortenUrl` (lines 32-103). `body = none` is a JSON decode
failure; `generated` is the result of `createShortCode(ctx, 0)` on the
no-custom-URL branch (its panic is the `.error` case); `existsCheck` is
`doesShortCodeExist`. A caller-supplied custom URL is checked only for
emptiness and current existence, then used verbatim. -/
def shortenUrl (existsCheck : String → Bool) (generated : Except String String)
    (parseRFC3339 : String → Option Int) (bcryptHash : String → Option String)
    (user : Option Nat) (now : Int) (insertErr : Bool)
    (body : Option ShortenRequestBody) : ShortenResult :=
  match body with
  | none => .badRequest "Invalid request body"
  | some rb =>
    if rb.URL = "" then .badRequest "URL is required"
    else if rb.CustomUrl = some "" then .badRequest "Custom URL cannot be empty"
    else
      match rb.CustomUrl with
      | some cu =>
        if existsCheck cu then .badRequest "This custom URL already exists"
        else shortenUrlInsert parseRFC3339 bcryptHash user now insertErr rb cu
      | none =>
        match generated with
        | .error m => .panicked m
        | .ok c => shortenUrlInsert parseRFC3339 bcryptHash user now insertErr rb c

/-! ## Hash-based generator variant (src/unnamed/part_002 lines 29-56) -/

namespace Hashed

def NORMAL_SHORT_CODE_LENGTH : Nat := 8

/-- Model of `hashedUrl` (part_002 lines 35-41): `hashFn` stands for
`base64.StdEncoding.EncodeToString(sha256.Sum256(url)[:])`, a fixed
44-character string per input; the code is its prefix of length
`NORMAL_SHORT_CODE_LENGTH + additionalLength`. -/
def hashedUrl (hashFn : String → List Char) (originalUrl : String)
    (additionalLength : Nat) : List Char :=
  (hashFn originalUrl).take (NORMAL_SHORT_CODE_LENGTH + additionalLength)

/-- Model of `createShortUrlWithRetry` (part_002 lines 43-56). The fresh
`uuid.New().String()` tokens are `uuids 0, uuids 1, ...` in order of
consumption; the panic on an exhausted retry budget is the `.error` case
and carries the original URL as the Go message does. -/
def createShortUrlWithRetry (hashFn : String → List Char)
    (existsCheck : List Char → Bool) (uuids : Nat → String) (ogUrl : String)
    (shortCode : List Char) (retryCount : Nat) : Except String (List Char) :=
  if existsCheck shortCode then
    match retryCount with
    | r + 1 =>
      createShortUrlWithRetry hashFn existsCheck (fun i => uuids (i + 1)) ogUrl
        (hashedUrl hashFn (ogUrl ++ uuids 0) (MAX_RETRIES - (r + 1))) r
    | 0 => .error ("Error creating short url, max retry count exceded " ++ ogUrl)
  else
    .ok shortCode

/-- Model of the hash-variant `createShortCode` (part_002 lines 29-33). -/
def createShortCode (hashFn : String → List Char)
    (existsCheck : List Char → Bool) (uuids : Nat → String)
    (originalUrl : String) : Except String (List Char) :=
  let shortCode := hashedUrl hashFn originalUrl 0
  createShortUrlWithRetry hashFn existsCheck uuids originalUrl shortCode MAX_RETRIES

/-- The i-th candidate code of a `createShortCode` run: the seed, then one
re-encoding per retry, the (i+1)-st retry mixing in the i-th uuid with
additional length budget `MAX_RETRIES - (MAX_RETRIES - i) = i` symbols
past the seed index, exactly as the recursion computes it. -/
def candidate (hashFn : String → List Char) (uuids : Nat → String)
    (url : String) : Nat → List Char
  | 0 => hashedUrl hashFn url 0
  | i + 1 => hashedUrl hashFn (url ++ uuids i) i

end Hashed

/-! ## Concrete instances used by counterexamples and witnesses -/

/-- Existence check that never reports a collision. -/
def exFalse : String → Bool := fun _ => false

/-- Concrete stand-in for the sha256+base64 digest: 44 copies of a letter
determined by the input length, so different inputs can give different
digests while the 44-character digest length of the real function is kept. -/
def cHashFn : String → List Char :=
  fun s => List.replicate 44 (Char.ofNat (97 + s.length % 3))

/-- Concrete uuid stream. -/
def cUuids : Nat → String := fun _ => "x"

/-- Rigged existence check: exactly the first candidate of a `cHashFn` run
on "u" collides. -/
def cExists : List Char → Bool := fun c => c == List.replicate 8 'b'

/-- Rigged existence check: exactly the first two candidates of a
`cHashFn` run on "u" collide. -/
def cExists2 : List Char → Bool :=
  fun c => c == List.replicate 8 'b' || c == List.replicate 8 'c'

/-- Redis with no cached entries. -/
def cRedisMiss : RedisGet := fun _ => .ok none

/-- Store whose existence query always fails. -/
def cDbErr : String → Except Unit Nat := fun _ => .error ()

/-- A tombstoned record. -/
def cTombstoned : UrlShortener :=
  { OriginalUrl := "http://e.com", ShortCode := "abc", Views := 0,
    LastViewed := none, UserId := none, Password := none, CreatedAt := 0,
    UpdatedAt := 0, DeletedAt := some 0, ExpiresAt := none }

/-- Redis that still holds the tombstoned record for every key. -/
def cRedisHitTombstoned : RedisGet := fun _ => .ok (some cTombstoned)

/-- Store in which no code exists. -/
def cDbZero : String → Except Unit Nat := fun _ => .ok 0

/-- A live, password-free record expiring at time `t`. -/
def expiringRow (url code : String) (t : Int) : UrlShortener :=
  { OriginalUrl := url, ShortCode := code, Views := 0, LastViewed := none,
    UserId := none, Password := none, CreatedAt := 0, UpdatedAt := 0,
    DeletedAt := none, ExpiresAt := some t }

/-- A record expiring 48 hours after time 0. -/
def farFutureRow : UrlShortener :=
  { OriginalUrl := "http://e.com", ShortCode := "abc", Views := 0,
    LastViewed := none, UserId := none, Password := none, CreatedAt := 0,
    UpdatedAt := 0, DeletedAt := none, ExpiresAt := some 172800 }

/-- A record with no expiry. -/
def noExpiryRow : UrlShortener :=
  { OriginalUrl := "http://e.com", ShortCode := "abc", Views := 0,
    LastViewed := none, UserId := none, Password := none, CreatedAt := 0,
    UpdatedAt := 0, DeletedAt := none, ExpiresAt := none }

/-! ## Helper lemmas -/

lemma fromBase36Digits_append (l : List Char) (c : Char) :
    fromBase36Digits (l ++ [c]) = fromBase36Digits l * 36 + base36DigitVal c := by
  simp [fromBase36Digits, List.foldl_append]

lemma base36DigitVal_getD : ∀ r < 36, base36DigitVal (base36Chars.getD r '?') = r := by
  decide

lemma getD_mem_base36Chars : ∀ r < 36, base36Chars.getD r '?' ∈ base36Chars := by
  decide

lemma base36Chars_digit_or_lower :
    ∀ c ∈ base36Chars, c.isDigit = true ∨ c.isLower = true := by
  decide

lemma fromBase36_toBase36Aux (n : Nat) : fromBase36Digits (toBase36Aux n) = n := by
  induction n using Nat.strong_induction_on with
  | _ n ih =>
    rw [toBase36Aux]
    split
    · simp [fromBase36Digits]; omega
    · rename_i hn
      rw [fromBase36Digits_append,
        ih (n / 36) (Nat.div_lt_self (Nat.pos_of_ne_zero hn) (by norm_num)),
        base36DigitVal_getD _ (Nat.mod_lt _ (by norm_num))]
      omega

lemma toBase36Aux_mem (n : Nat) : ∀ c ∈ toBase36Aux n, c ∈ base36Chars := by
  induction n using Nat.strong_induction_on with
  | _ n ih =>
    rw [toBase36Aux]
    split
    · simp
    · rename_i hn
      intro c hc
      rcases List.mem_append.mp hc with h1 | h2
      · exact ih (n / 36) (Nat.div_lt_self (Nat.pos_of_ne_zero hn) (by norm_num)) c h1
      · rcases List.mem_singleton.mp h2 with rfl
        exact getD_mem_base36Chars _ (Nat.mod_lt _ (by norm_num))

lemma deleteUrl_map_code (now : Int) (code : String) (s : List UrlShortener) :
    (deleteUrl now code s).map UrlShortener.ShortCode =
      s.map UrlShortener.ShortCode := by
  simp only [deleteUrl, List.map_map]
  refine List.map_congr_left ?_
  intro r _
  simp only [Function.comp_apply]
  split <;> rfl

lemma activateUrl_map_code (code : String) (s : List UrlShortener) :
    (activateUrl code s).map UrlShortener.ShortCode =
      s.map UrlShortener.ShortCode := by
  simp only [activateUrl, List.map_map]
  refine List.map_congr_left ?_
  intro r _
  simp only [Function.comp_apply]
  split <;> rfl

/-- Every reachable table state has pairwise-distinct short codes over all
rows, because the insert path respects the unique constraint and the two
update paths never touch `short_code`. -/
lemma reachable_codes_nodup {s : List UrlShortener} (h : Reachable s) :
    (s.map UrlShortener.ShortCode).Nodup := by
  induction h with
  | nil => simp
  | step _ hstep ih =>
    cases hstep with
    | insert r hfresh =>
      rw [List.map_append]
      rw [List.nodup_append]
      refine ⟨ih, List.nodup_singleton _, ?_⟩
      intro a ha hb
      rcases List.mem_map.mp ha with ⟨x, hx, rfl⟩
      rcases List.mem_singleton.mp (by simpa using hb) with h
      exact hfresh x hx (by simpa using h)
    | delete now code => rwa [deleteUrl_map_code]
    | activate code => rwa [activateUrl_map_code]

/-- A code returned (rather than a panic raised) by `createShortCode` was
found free by the existence check in the very call frame that returned it. -/
lemma createShortCode_ok_not_exists (existsCheck : String → Bool) (times : Nat → Int) :
    ∀ (fuel : Nat) (st : GenState) (rc : Nat) (code : String) (st2 : GenState),
      MAX_RETRIES + 1 - rc ≤ fuel →
      createShortCode existsCheck times st rc = .ok (code, st2) →
      existsCheck code = false := by
  intro fuel
  induction fuel with
  | zero =>
    intro st rc code st2 hf h
    rw [createShortCode] at h
    rw [dif_pos (by simp only [MAX_RETRIES] at *; omega)] at h
    cases h
  | succ n ih =>
    intro st rc code st2 hf h
    rw [createShortCode] at h
    split at h
    · cases h
    · simp only at h
      split at h
      · exact ih _ _ _ _ (by simp only [MAX_RETRIES] at *; omega) h
      · rename_i hec
        cases h
        simpa using hec

/-- Unrolling of a full hash-variant generation run: the four candidates
are probed in order and the first free one is returned. -/
lemma Hashed.run_eq (hashFn : String → List Char) (existsCheck : List Char → Bool)
    (uuids : Nat → String) (url : String) :
    Hashed.createShortCode hashFn existsCheck uuids url =
      (if existsCheck (Hashed.candidate hashFn uuids url 0) then
        if existsCheck (Hashed.candidate hashFn uuids url 1) then
          if existsCheck (Hashed.candidate hashFn uuids url 2) then
            if existsCheck (Hashed.candidate hashFn uuids url 3) then
              .error ("Error creating short url, max retry count exceded " ++ url)
            else .ok (Hashed.candidate hashFn uuids url 3)
          else .ok (Hashed.candidate hashFn uuids url 2)
        else .ok (Hashed.candidate hashFn uuids url 1)
      else .ok (Hashed.candidate hashFn uuids url 0)) := by
  simp only [Hashed.createShortCode, Hashed.createShortUrlWithRetry,
    Hashed.candidate, MAX_RETRIES]

/-- Length of the i-th candidate: the seed has the base length and the
(i+1)-st retry candidate has `base + i` characters, so the first retry
repeats the seed length. -/
lemma Hashed.candidate_length (hashFn : String → List Char) (uuids : Nat → String)
    (url : String) (hlen : ∀ s, (hashFn s).length = 44) :
    ∀ i ≤ MAX_RETRIES, (Hashed.candidate hashFn uuids url i).length =
      Hashed.NORMAL_SHORT_CODE_LENGTH + (i - 1) := by
  intro i hi
  cases i with
  | zero =>
    simp [Hashed.candidate, Hashed.hashedUrl, hlen, Hashed.NORMAL_SHORT_CODE_LENGTH]
  | succ j =>
    simp only [MAX_RETRIES] at hi
    simp [Hashed.candidate, Hashed.hashedUrl, hlen, Hashed.NORMAL_SHORT_CODE_LENGTH]
    omega

/-! ## Claims -/

/-- C1: at every reachable store state any two live rows have distinct
short codes, and a code returned by the counter-based generator
`createShortCode` was seen as non-existing by the existence check at the
moment it was returned; the only other outcome is the max-retry panic. -/
theorem claim_C1_unique_codes_and_checked_generator :
    (∀ s, Reachable s → ∀ now : Int,
      List.Pairwise (fun a b => liveFilter now a = true → liveFilter now b = true →
        a.ShortCode ≠ b.ShortCode) s)
    ∧ (∀ (existsCheck : String → Bool) (times : Nat → Int) (st : GenState)
        (rc : Nat) (code : String) (st2 : GenState),
        createShortCode existsCheck times st rc = .ok (code, st2) →
        existsCheck code = false) := by
  constructor
  · intro s hs now
    have hnd := reachable_codes_nodup hs
    rw [List.Nodup, List.pairwise_map] at hnd
    exact hnd.imp (fun hab _ _ => hab)
  · intro existsCheck times st rc code st2 h
    exact createShortCode_ok_not_exists existsCheck times (MAX_RETRIES + 1 - rc)
      st rc code st2 (le_refl _) h

/-- Witness for C1: the empty store is reachable and satisfies the
invariant, and a concrete generator run with a collision-free existence
check returns the code it checked. -/
theorem claim_C1_witness :
    List.Pairwise (fun a b => liveFilter 0 a = true → liveFilter 0 b = true →
      a.ShortCode ≠ b.ShortCode) ([] : List UrlShortener)
    ∧ exFalse (toBase36 1) = false :=
  ⟨claim_C1_unique_codes_and_checked_generator.1 [] Reachable.nil 0,
   claim_C1_unique_codes_and_checked_generator.2 exFalse (fun _ => 0) ⟨0, 0⟩ 0
     (toBase36 1) ⟨1, 0⟩ (by
       rw [createShortCode]
       norm_num [MAX_RETRIES, exFalse, int64OfUint64, wrap64])⟩

/-- C2 as stated is false: with a rigged check colliding exactly on the
first k = 1 candidate, the returned second candidate has the same length
as the seed, because the first retry re-encodes with zero extra length
budget (`MAX_RETRIES - retryCount` is 0 on the first retry). -/
theorem claim_C2_counterexample :
    ¬ (∀ (hashFn : String → List Char) (existsCheck : List Char → Bool)
        (uuids : Nat → String) (url : String) (k : Nat),
        (∀ s, (hashFn s).length = 44) →
        1 ≤ k → k < MAX_RETRIES →
        (∀ i, i < k → existsCheck (Hashed.candidate hashFn uuids url i) = true) →
        existsCheck (Hashed.candidate hashFn uuids url k) = false →
        Hashed.createShortCode hashFn existsCheck uuids url =
            .ok (Hashed.candidate hashFn uuids url k)
          ∧ (Hashed.candidate hashFn uuids url 0).length <
              (Hashed.candidate hashFn uuids url k).length) := by
  intro hclaim
  have h := hclaim cHashFn cExists cUuids "u" 1 (by intro s; simp [cHashFn])
    (le_refl 1) (by norm_num [MAX_RETRIES]) (by decide) (by decide)
  exact absurd h.2 (by decide)

/-- C2 amended: when the first k candidates (1 ≤ k < maxRetries) collide
and the next is free, `resolve` returns the (k+1)-th candidate, whose
length is the base length plus k - 1; it is therefore strictly longer
than the seed exactly once k ≥ 2, not already at k = 1. -/
theorem claim_C2_escalation_amended :
    ∀ (hashFn : String → List Char) (existsCheck : List Char → Bool)
      (uuids : Nat → String) (url : String) (k : Nat),
      (∀ s, (hashFn s).length = 44) →
      1 ≤ k → k < MAX_RETRIES →
      (∀ i, i < k → existsCheck (Hashed.candidate hashFn uuids url i) = true) →
      existsCheck (Hashed.candidate hashFn uuids url k) = false →
      Hashed.createShortCode hashFn existsCheck uuids url =
          .ok (Hashed.candidate hashFn uuids url k)
        ∧ (Hashed.candidate hashFn uuids url k).length =
            Hashed.NORMAL_SHORT_CODE_LENGTH + (k - 1)
        ∧ (2 ≤ k →
            (Hashed.candidate hashFn uuids url 0).length <
              (Hashed.candidate hashFn uuids url k).length) := by
  intro hashFn existsCheck uuids url k hlen hk1 hk3 htrue hfalse
  have hlen0 := Hashed.candidate_length hashFn uuids url hlen 0 (by norm_num [MAX_RETRIES])
  have hlenk := Hashed.candidate_length hashFn uuids url hlen k (by omega)
  rw [Hashed.run_eq]
  simp only [MAX_RETRIES] at hk3
  interval_cases k
  · refine ⟨?_, hlenk, by omega⟩
    rw [htrue 0 (by norm_num)]
    simp [hfalse]
  · refine ⟨?_, hlenk, fun _ => by omega⟩
    rw [htrue 0 (by norm_num), htrue 1 (by norm_num)]
    simp [hfalse]

/-- Witness for C2 amended: a run in which exactly the first two
candidates collide returns the third candidate, nine characters long
against the eight of the seed. -/
theorem claim_C2_witness :
    Hashed.createShortCode cHashFn cExists2 cUuids "u" =
        .ok (Hashed.candidate cHashFn cUuids "u" 2)
    ∧ (Hashed.candidate cHashFn cUuids "u" 2).length =
        Hashed.NORMAL_SHORT_CODE_LENGTH + (2 - 1)
    ∧ (Hashed.candidate cHashFn cUuids "u" 0).length <
        (Hashed.candidate cHashFn cUuids "u" 2).length :=
  have h := claim_C2_escalation_amended cHashFn cExists2 cUuids "u" 2
    (by intro s; simp [cHashFn]) (by norm_num) (by norm_num [MAX_RETRIES])
    (by decide) (by decide)
  ⟨h.1, h.2.1, h.2.2 (le_refl 2)⟩

/-- C3: the hash-variant resolver fails, with the panic message carrying
the original input, exactly when the seed and all permitted retry
candidates collide; and with a zero retry budget only the seed is probed,
a collision on it failing immediately. -/
theorem claim_C3_exhausted_retries :
    (∀ (hashFn : String → List Char) (existsCheck : List Char → Bool)
        (uuids : Nat → String) (url : String),
        (Hashed.createShortCode hashFn existsCheck uuids url =
            .error ("Error creating short url, max retry count exceded " ++ url)
          ↔ ∀ i, i ≤ MAX_RETRIES →
              existsCheck (Hashed.candidate hashFn uuids url i) = true))
    ∧ (∀ (hashFn : String → List Char) (existsCheck : List Char → Bool)
        (uuids : Nat → String) (url : String) (seed : List Char),
        (existsCheck seed = true →
          Hashed.createShortUrlWithRetry hashFn existsCheck uuids url seed 0 =
            .error ("Error creating short url, max retry count exceded " ++ url))
        ∧ (existsCheck seed = false →
          Hashed.createShortUrlWithRetry hashFn existsCheck uuids url seed 0 =
            .ok seed)) := by
  constructor
  · intro hashFn existsCheck uuids url
    rw [Hashed.run_eq]
    constructor
    · intro h i hi
      cases h0 : existsCheck (Hashed.candidate hashFn uuids url 0) <;>
        rw [h0] at h <;> simp at h
      cases h1 : existsCheck (Hashed.candidate hashFn uuids url 1) <;>
        rw [h1] at h <;> simp at h
      cases h2 : existsCheck (Hashed.candidate hashFn uuids url 2) <;>
        rw [h2] at h <;> simp at h
      cases h3 : existsCheck (Hashed.candidate hashFn uuids url 3) <;>
        rw [h3] at h <;> simp at h
      simp only [MAX_RETRIES] at hi
      interval_cases i <;> assumption
    · intro hall
      rw [hall 0 (by norm_num [MAX_RETRIES]), hall 1 (by norm_num [MAX_RETRIES]),
        hall 2 (by norm_num [MAX_RETRIES]), hall 3 (by norm_num [MAX_RETRIES])]
      simp
  · intro hashFn existsCheck uuids url seed
    constructor
    · intro h
      rw [Hashed.createShortUrlWithRetry, h]
      simp
    · intro h
      rw [Hashed.createShortUrlWithRetry, h]
      simp

/-- Witness for C3: with an always-colliding check a full run fails with
the message carrying "u", and with a zero retry budget a free seed is
returned unchanged. -/
theorem claim_C3_witness :
    Hashed.createShortCode cHashFn (fun _ => true) cUuids "u" =
      .error ("Error creating short url, max retry count exceded " ++ "u")
    ∧ Hashed.createShortUrlWithRetry cHashFn (fun _ => false) cUuids "u"
        (List.replicate 8 'b') 0 = .ok (List.replicate 8 'b') :=
  ⟨(claim_C3_exhausted_retries.1 cHashFn (fun _ => true) cUuids "u").mpr
     (fun _ _ => rfl),
   (claim_C3_exhausted_retries.2 cHashFn (fun _ => false) cUuids "u"
     (List.replicate 8 'b')).2 rfl⟩

/-- C4 as stated is false: with a cache miss and a failing store query,
`doesShortCodeExist` reports the code as not existing instead of failing
closed (`result.Error != nil` returns false). -/
theorem claim_C4_counterexample :
    ¬ (∀ (redis : RedisGet) (db : String → Except Unit Nat) (code : String),
        db code = .error () → doesShortCodeExist redis db code = true) := by
  intro hclaim
  have h := hclaim cRedisMiss cDbErr "abc" rfl
  exact absurd h (by decide)

/-- C4 amended: when the cache misses and the backing-store existence
query fails, `doesShortCodeExist` returns false — the failure is
interpreted as the code not existing (fail-open), uniqueness being left
to the insert-time unique constraint. -/
theorem claim_C4_store_failure_amended :
    ∀ (redis : RedisGet) (db : String → Except Unit Nat) (code : String),
      (getCachedUrl redis code).1 = none → db code = .error () →
      doesShortCodeExist redis db code = false := by
  intro redis db code hmiss herr
  unfold doesShortCodeExist
  rw [hmiss, herr]

/-- Witness for C4 amended: concrete cache miss plus store failure. -/
theorem claim_C4_witness :
    doesShortCodeExist cRedisMiss cDbErr "abc" = false :=
  claim_C4_store_failure_amended cRedisMiss cDbErr "abc" rfl rfl

/-- C5: after `deleteUrl` tombstones a code, resolution through
`redirectToOriginalUrl` / `getUrlModel` answers not-found at every later
(indeed any) time; the read path queries only the database, so no cached
copy can be observed. -/
theorem claim_C5_tombstone_then_not_found :
    ∀ (bcryptCheck : String → String → Bool) (tDel tRes : Int)
      (s : List UrlShortener) (code password : String),
      code ≠ "" →
      redirectToOriginalUrl bcryptCheck tRes (deleteUrl tDel code s) code password =
        .notFound := by
  intro bc tDel tRes s code pw h
  have hfil : (deleteUrl tDel code s).filter
      (fun r => r.ShortCode == code && liveFilter tRes r) = [] := by
    rw [List.filter_eq_nil_iff]
    intro r hr
    simp only [deleteUrl, List.mem_map] at hr
    obtain ⟨x, hx, rfl⟩ := hr
    split
    · simp [liveFilter]
    · rename_i hne
      simp only [Bool.and_eq_true, beq_iff_eq]
      rintro ⟨rfl, -⟩
      exact hne (by simp)
  have hnone : getUrlModel tRes (deleteUrl tDel code s) code = none := by
    unfold getUrlModel
    rw [hfil]
    rfl
  unfold redirectToOriginalUrl
  rw [if_neg h, hnone]

/-- Witness for C5: deleting "abc" from a store holding it live makes the
immediate re-resolution answer not-found. -/
theorem claim_C5_witness :
    redirectToOriginalUrl (fun _ _ => false) 0
      (deleteUrl 0 "abc" [expiringRow "http://e.com" "abc" 100]) "abc" "" =
      .notFound :=
  claim_C5_tombstone_then_not_found (fun _ _ => false) 0 0
    [expiringRow "http://e.com" "abc" 100] "abc" "" (by decide)

/-- C6 as stated is false: for a record expiring 48 hours ahead,
`cacheUrl` sets the TTL to the full 48 hours, not to the claimed
`min(expiresAt - now, 24h)`; the 24-hour value is used only when the
record has no expiry at all. -/
theorem claim_C6_counterexample :
    ¬ (∀ (now : Int) (m : UrlShortener) (t : Int), m.ExpiresAt = some t →
        (t ≤ now → cacheUrl now m = .noop)
        ∧ (now < t → cacheUrl now m = .set (min (t - now) hours24))) := by
  intro hclaim
  have h := (hclaim 0 farFutureRow 172800 rfl).2 (by norm_num)
  exact absurd h (by decide)

/-- C6 amended: `cacheUrl` uses the 24-hour TTL exactly when the record
has no expiry; with an expiry it is a no-op when the record is already
expired and otherwise sets TTL `expiresAt - now` with no 24-hour cap. -/
theorem claim_C6_ttl_amended :
    (∀ (now : Int) (m : UrlShortener), m.ExpiresAt = none →
      cacheUrl now m = .set hours24)
    ∧ (∀ (now : Int) (m : UrlShortener) (t : Int), m.ExpiresAt = some t →
      t ≤ now → cacheUrl now m = .noop)
    ∧ (∀ (now : Int) (m : UrlShortener) (t : Int), m.ExpiresAt = some t →
      now < t → cacheUrl now m = .set (t - now))
    ∧ (∀ (now : Int) (m : UrlShortener) (t : Int), m.ExpiresAt = some t →
      hours24 < t - now → cacheUrl now m ≠ .set (min (t - now) hours24)) := by
  refine ⟨?_, ?_, ?_, ?_⟩
  · intro now m h
    unfold cacheUrl
    rw [h]
  · intro now m t h ht
    simp only [cacheUrl, h]
    rw [if_pos (by omega)]
  · intro now m t h ht
    simp only [cacheUrl, h]
    rw [if_neg (by omega)]
  · intro now m t h ht
    have h3 : cacheUrl now m = .set (t - now) := by
      simp only [cacheUrl, h]
      rw [if_neg (by simp only [hours24] at ht ⊢; omega)]
    rw [h3]
    intro heq
    injection heq with h4
    rw [inf_eq_right.mpr (le_of_lt ht)] at h4
    omega

/-- Witness for C6 amended: all four branches exercised on concrete
records, the last showing the 48-hour record cached uncapped. -/
theorem claim_C6_witness :
    cacheUrl 0 noExpiryRow = .set hours24
    ∧ cacheUrl 200000 farFutureRow = .noop
    ∧ cacheUrl 0 farFutureRow = .set (172800 - 0)
    ∧ cacheUrl 0 farFutureRow ≠ .set (min (172800 - 0) hours24) :=
  ⟨claim_C6_ttl_amended.1 0 noExpiryRow rfl,
   claim_C6_ttl_amended.2.1 200000 farFutureRow 172800 rfl (by norm_num),
   claim_C6_ttl_amended.2.2.1 0 farFutureRow 172800 rfl (by norm_num),
   claim_C6_ttl_amended.2.2.2 0 farFutureRow 172800 rfl (by norm_num [hours24])⟩

/-- C7 as stated is false: a cache hit on a tombstoned (or expired) entry
in `doesShortCodeExist` is not treated as a miss — it answers true
without falling through to the store, which here says the code is gone. -/
theorem claim_C7_counterexample :
    ¬ (∀ (redis : RedisGet) (db : String → Except Unit Nat) (code : String)
        (m : UrlShortener) (now : Int),
        (getCachedUrl redis code).1 = some m →
        (m.DeletedAt ≠ none ∨ ∃ t, m.ExpiresAt = some t ∧ t ≤ now) →
        doesShortCodeExist redis db code =
          doesShortCodeExist (fun _ => .ok none) db code) := by
  intro hclaim
  have h := hclaim cRedisHitTombstoned cDbZero "abc" cTombstoned 0 rfl
    (Or.inl (by decide))
  exact absurd h (by decide)

/-- C7 amended: any cache hit inside `doesShortCodeExist` yields true,
regardless of the entry's tombstone or expiry fields and regardless of
what the store would answer; there is no self-heal on this read path. -/
theorem claim_C7_cache_hit_amended :
    ∀ (redis : RedisGet) (db : String → Except Unit Nat) (code : String)
      (m : UrlShortener),
      (getCachedUrl redis code).1 = some m →
      doesShortCodeExist redis db code = true := by
  intro redis db code m hhit
  unfold doesShortCodeExist
  rw [hhit]

/-- Witness for C7 amended: the tombstoned cached entry makes the
existence check answer true even though the store holds no such code. -/
theorem claim_C7_witness :
    doesShortCodeExist cRedisHitTombstoned cDbZero "abc" = true :=
  claim_C7_cache_hit_amended cRedisHitTombstoned cDbZero "abc" cTombstoned rfl

/-- C8: resolution of a code whose rows are all absent, tombstoned or
expired yields the single `.notFound` outcome in every case; and a link
with a future expiry resolves successfully before the expiry and to the
same `.notFound` once the expiry has passed. -/
theorem claim_C8_not_found_uniform :
    (∀ (bcryptCheck : String → String → Bool) (now : Int) (s : List UrlShortener)
        (code password : String),
        code ≠ "" →
        (∀ r ∈ s, r.ShortCode = code →
          r.DeletedAt ≠ none ∨ ∃ t, r.ExpiresAt = some t ∧ t ≤ now) →
        redirectToOriginalUrl bcryptCheck now s code password = .notFound)
    ∧ (∀ (bcryptCheck : String → String → Bool) (url code : String)
        (t now1 now2 : Int) (password : String),
        code ≠ "" → now1 < t → t ≤ now2 →
        redirectToOriginalUrl bcryptCheck now1 [expiringRow url code t] code password =
          .redirect url
        ∧ redirectToOriginalUrl bcryptCheck now2 [expiringRow url code t] code password =
          .notFound) := by
  constructor
  · intro bc now s code pw hcode hdead
    have hfil : s.filter (fun r => r.ShortCode == code && liveFilter now r) = [] := by
      rw [List.filter_eq_nil_iff]
      intro r hr
      simp only [Bool.and_eq_true, beq_iff_eq]
      rintro ⟨rfl, hlive⟩
      rcases hdead r hr rfl with hdel | ⟨t, ht, htle⟩
      · simp only [liveFilter, Bool.and_eq_true, Option.isNone_iff_eq_none] at hlive
        exact hdel hlive.1
      · simp only [liveFilter, Bool.and_eq_true, ht] at hlive
        simp at hlive
        omega
    unfold redirectToOriginalUrl
    rw [if_neg hcode]
    unfold getUrlModel
    rw [hfil]
    rfl
  · intro bc url code t now1 now2 pw hcode h1 h2
    constructor
    · have hlive : liveFilter now1 (expiringRow url code t) = true := by
        simp [liveFilter, expiringRow]
        omega
      simp only [expiringRow] at hlive
      unfold redirectToOriginalUrl
      rw [if_neg hcode]
      unfold getUrlModel
      simp [hlive, expiringRow]
    · have hlive : liveFilter now2 (expiringRow url code t) = false := by
        simp [liveFilter, expiringRow]
        omega
      simp only [expiringRow] at hlive
      unfold redirectToOriginalUrl
      rw [if_neg hcode]
      unfold getUrlModel
      simp [hlive, expiringRow]

/-- Witness for C8: an unknown code resolves to not-found on an empty
store, and a concrete link expiring at time 2 redirects at time 0 and is
not found at time 3. -/
theorem claim_C8_witness :
    redirectToOriginalUrl (fun _ _ => false) 0 [] "zzzzzzzz" "" = .notFound
    ∧ redirectToOriginalUrl (fun _ _ => false) 0
        [expiringRow "http://e.com" "abc" 2] "abc" "" = .redirect "http://e.com"
    ∧ redirectToOriginalUrl (fun _ _ => false) 3
        [expiringRow "http://e.com" "abc" 2] "abc" "" = .notFound :=
  have h := claim_C8_not_found_uniform.2 (fun _ _ => false) "http://e.com" "abc"
    2 0 3 "" (by decide) (by norm_num) (by norm_num)
  ⟨claim_C8_not_found_uniform.1 (fun _ _ => false) 0 [] "zzzzzzzz" "" (by decide)
     (by intro r hr; cases hr),
   h.1, h.2⟩

/-- C9: the base-36 encoder is injective over non-negative inputs, its
output is drawn from digits and lowercase letters only, and the encoding
of zero is the one-character string "0". -/
theorem claim_C9_encoder :
    (∀ x y : Int, 0 ≤ x → 0 ≤ y → toBase36 x = toBase36 y → x = y)
    ∧ (∀ n : Int, ∀ c ∈ (toBase36 n).data, c.isDigit = true ∨ c.isLower = true)
    ∧ toBase36 0 = "0" := by
  refine ⟨?_, ?_, rfl⟩
  · intro x y hx hy h
    unfold toBase36 at h
    split at h <;> split at h
    · omega
    · rename_i hx0 hy0
      have hd := congrArg String.data h
      simp only [String.data] at hd
      have := congrArg fromBase36Digits hd
      rw [fromBase36_toBase36Aux] at this
      have h0 : fromBase36Digits "0".data = 0 := by decide
      rw [h0] at this
      omega
    · rename_i hx0 hy0
      have hd := congrArg String.data h
      simp only [String.data] at hd
      have := congrArg fromBase36Digits hd
      rw [fromBase36_toBase36Aux] at this
      have h0 : fromBase36Digits "0".data = 0 := by decide
      rw [h0] at this
      omega
    · rename_i hx0 hy0
      have hd := congrArg String.data h
      simp only [String.data] at hd
      have := congrArg fromBase36Digits hd
      rw [fromBase36_toBase36Aux, fromBase36_toBase36Aux] at this
      omega
  · intro n c hc
    unfold toBase36 at hc
    split at hc
    · have : c = '0' := by simpa using hc
      subst this
      left
      rfl
    · exact base36Chars_digit_or_lower c (toBase36Aux_mem _ c hc)

/-- Witness for C9: injectivity applied at 35, and the digit-or-lowercase
property applied to the character of the encoding of 1. -/
theorem claim_C9_witness :
    (35 : Int) = 35 ∧ ('1'.isDigit = true ∨ '1'.isLower = true) :=
  ⟨claim_C9_encoder.1 35 35 (by norm_num) (by norm_num) rfl,
   claim_C9_encoder.2.1 1 '1' (by
     rw [toBase36, if_neg (by norm_num), toBase36Aux]
     norm_num
     right
     decide)⟩

/-- C10: the shorten endpoint stores a caller-supplied custom code
verbatim after checking only non-emptiness and current non-existence; in
particular it accepts and stores "A!" (outside the base-36 alphabet,
shorter than 5) and a 21-character code (longer than 16). -/
theorem claim_C10_custom_code_verbatim :
    (∀ (existsCheck : String → Bool) (generated : Except String String)
        (parse : String → Option Int) (bcrypt : String → Option String)
        (user : Option Nat) (now : Int) (cu url : String),
        cu ≠ "" → url ≠ "" → existsCheck cu = false →
        ∃ stored, shortenUrl existsCheck generated parse bcrypt user now false
            (some { URL := url, ExpiresAt := none, CustomUrl := some cu,
                    Password := none }) = .created cu stored
          ∧ stored.ShortCode = cu)
    ∧ (∃ stored, shortenUrl (fun _ => false) (.ok "g") (fun _ => none)
          (fun _ => none) none 0 false
          (some { URL := "http://e.com", ExpiresAt := none,
                  CustomUrl := some "A!", Password := none }) =
            .created "A!" stored
        ∧ "A!".data.any (fun c => decide (c ∉ base36Chars)) = true
        ∧ "A!".length < 5)
    ∧ (∃ stored, shortenUrl (fun _ => false) (.ok "g") (fun _ => none)
          (fun _ => none) none 0 false
          (some { URL := "http://e.com", ExpiresAt := none,
                  CustomUrl := some "abcdefghijklmnopqrstu", Password := none }) =
            .created "abcdefghijklmnopqrstu" stored
        ∧ 16 < "abcdefghijklmnopqrstu".length) := by
  refine ⟨?_, ?_, ?_⟩
  · intro e g p b u now cu url hcu hurl hex
    refine ⟨{ OriginalUrl := url, ShortCode := cu, Views := 0, LastViewed := none,
              UserId := u, Password := none, CreatedAt := now, UpdatedAt := now,
              DeletedAt := none, ExpiresAt := none }, ?_, rfl⟩
    simp [shortenUrl, shortenUrlInsert, hurl, hcu, hex]
  · exact ⟨{ OriginalUrl := "http://e.com", ShortCode := "A!", Views := 0,
             LastViewed := none, UserId := none, Password := none,
             CreatedAt := 0, UpdatedAt := 0, DeletedAt := none,
             ExpiresAt := none },
      by decide, by decide, by decide⟩
  · exact ⟨{ OriginalUrl := "http://e.com", ShortCode := "abcdefghijklmnopqrstu",
             Views := 0, LastViewed := none, UserId := none, Password := none,
             CreatedAt := 0, UpdatedAt := 0, DeletedAt := none,
             ExpiresAt := none },
      by decide, by decide⟩

/-- Witness for C10: the general verbatim-storage conjunct applied to the
concrete custom code "my custom code". -/
theorem claim_C10_witness :
    ∃ stored, shortenUrl (fun _ => false) (.ok "g") (fun _ => none)
        (fun _ => none) none 0 false
        (some { URL := "http://e.com", ExpiresAt := none,
                CustomUrl := some "my custom code", Password := none }) =
          .created "my custom code" stored
      ∧ stored.ShortCode = "my custom code" :=
  claim_C10_custom_code_verbatim.1 (fun _ => false) (.ok "g") (fun _ => none)
    (fun _ => none) none 0 "my custom code" "http://e.com"
    (by decide) (by decide) rfl
